import Mathlib

/-!
Shallow embedding of `src/main.py`, a mock banking HTTP API built on three
pieces: an account generator, a transaction generator, and three read
endpoints.  Randomness (`random.choice`, `random.uniform`, `random.randint`)
is modelled by explicit draw oracles passed to each function; hypotheses of
the form `AccountDrawsOk` restrict the oracles to the ranges the Python
`random` calls can produce.  Monetary values are modelled as rationals, with
`round2` playing the role of the Python `round(x, 2)` (round to the nearest
hundredth).  Dates are modelled as integer day numbers: the code formats a
date as "%Y-%m-%d", whose lexicographic string order agrees with day order,
so the sort key `transaction_date` is embedded as the day number itself.
Python strings that the code manipulates (the `account_ids` query parameter,
error details, dictionary keys) are modelled as `List Char`.
-/

/-- Python `round(x, 2)`: the nearest multiple of 1/100, over ℚ. -/
def round2 (q : ℚ) : ℚ := (round (100 * q) : ℤ) / 100

/-- The constant `ACCOUNT_TYPES` from src/main.py. -/
def ACCOUNT_TYPES : List String := ["Transactional", "Credit Card", "Loan"]

/-- The constant `name_prefixes` inside `generate_accounts`. -/
def name_prefixes : List String :=
  ["Main", "Joint", "Personal", "Business", "Savings", "Holiday",
   "Emergency", "Investment", "Everyday", "Bonus", "Mortgage", "Auto"]

/-- The Pydantic model `BankAccount`. -/
structure BankAccount where
  id : ℤ
  account_name : String
  account_type : String
  available_balance : ℚ
  total_balance : ℚ
deriving DecidableEq

/-- The Pydantic model `Transaction`.  The field `transaction_date` holds the
day number of the formatted date (see the module comment). -/
structure Transaction where
  id : ℤ
  transaction_reference : String
  transaction_amount : ℚ
  transaction_type : String
  transaction_date : ℤ
deriving DecidableEq

/-- Random draws consumed by `generate_accounts`, indexed by the loop
variable `i`: the `random.choice(ACCOUNT_TYPES)` pick (as an index into
`ACCOUNT_TYPES`), the two `random.uniform` draws of the chosen branch, and
the `random.choice(name_prefixes)` pick. -/
structure AccountDraws where
  typeChoice : ℕ → Fin 3
  uniformA : ℕ → ℚ
  uniformB : ℕ → ℚ
  nameChoice : ℕ → Fin 12

/-- The loop body of `generate_accounts` for index `i`: pick balances and a
display name according to the drawn account type. -/
def mkAccount (i : ℤ) (ty : Fin 3) (uA uB : ℚ) (pfx : Fin 12) : BankAccount :=
  if ACCOUNT_TYPES.getD ty.val "" = "Transactional" then
    { id := i
      account_name := (name_prefixes.getD pfx.val "") ++ " Account"
      account_type := ACCOUNT_TYPES.getD ty.val ""
      available_balance := round2 (round2 uA - uB)
      total_balance := round2 uA }
  else if ACCOUNT_TYPES.getD ty.val "" = "Credit Card" then
    { id := i
      account_name := (name_prefixes.getD pfx.val "") ++ " Card"
      account_type := ACCOUNT_TYPES.getD ty.val ""
      available_balance := round2 uA - round2 uB
      total_balance := -round2 uB }
  else
    { id := i
      account_name := (name_prefixes.getD pfx.val "") ++ " Loan"
      account_type := ACCOUNT_TYPES.getD ty.val ""
      available_balance := 0
      total_balance := -(round2 uA - round2 uB) }

/-- The function `generate_accounts(count)` of src/main.py: one account per
index `i` in `range(1, count + 1)`. -/
def generate_accounts (count : ℕ) (d : AccountDraws) : List BankAccount :=
  (List.range' 1 count).map fun (i : ℕ) =>
    mkAccount (i : ℤ) (d.typeChoice i) (d.uniformA i) (d.uniformB i) (d.nameChoice i)

/-- Ranges of the two `random.uniform` draws in the branch selected by the
drawn type: `uniform(1000, 50000)` and `uniform(0, 500)` for Transactional,
`uniform(1000, 20000)` and `uniform(0, credit_limit * 0.8)` for Credit Card,
`uniform(5000, 500000)` and `uniform(0, original_loan * 0.5)` for Loan
(`credit_limit` and `original_loan` are the first draw after `round(., 2)`). -/
def drawRangesOk (ty : Fin 3) (uA uB : ℚ) : Prop :=
  if ty.val = 0 then 1000 ≤ uA ∧ uA ≤ 50000 ∧ 0 ≤ uB ∧ uB ≤ 500
  else if ty.val = 1 then 1000 ≤ uA ∧ uA ≤ 20000 ∧ 0 ≤ uB ∧ uB ≤ round2 uA * (8/10)
  else 5000 ≤ uA ∧ uA ≤ 500000 ∧ 0 ≤ uB ∧ uB ≤ round2 uA * (1/2)

/-- An account-draw oracle is in range when every indexed draw is. -/
def AccountDrawsOk (d : AccountDraws) : Prop :=
  ∀ i, drawRangesOk (d.typeChoice i) (d.uniformA i) (d.uniformB i)

/-- The constant `debit_references` inside `generate_transactions_for_account`. -/
def debit_references : List String :=
  ["PAYMENT: Online Purchase", "ATM WITHDRAWAL", "POS PURCHASE: Grocery Store",
   "BILL PAYMENT: Utility", "TRANSFER TO: Savings Account",
   "SUBSCRIPTION: Streaming Service", "RESTAURANT PAYMENT", "MOBILE PAYMENT",
   "INSURANCE PREMIUM", "LOAN REPAYMENT"]

/-- The constant `credit_references` inside `generate_transactions_for_account`. -/
def credit_references : List String :=
  ["SALARY DEPOSIT", "TRANSFER FROM: Checking Account", "REFUND: Online Store",
   "INTEREST PAYMENT", "TAX REFUND", "DIVIDEND PAYMENT", "CASH DEPOSIT",
   "PAYMENT RECEIVED", "REIMBURSEMENT", "GOVERNMENT PAYMENT"]

/-- Random draws consumed by `generate_transactions_for_account`, indexed by
the loop variable `i`: the `random.randint(0, 14)` day offset, the
`random.choice([True, False])` debit flag, the `random.uniform(5, 1000)`
amount and the `random.choice` pick from the reference list. -/
structure TxDraws where
  daysAgo : ℕ → ℕ
  isDebit : ℕ → Bool
  amountDraw : ℕ → ℚ
  refChoice : ℕ → Fin 10

/-- The loop body of `generate_transactions_for_account` for index `i`,
given the day number `now` of `datetime.now()`. -/
def mkTransaction (account_id : ℤ) (now : ℤ) (i : ℕ) (d : TxDraws) : Transaction :=
  { id := account_id * 100 + i
    transaction_reference :=
      if d.isDebit i then debit_references.getD (d.refChoice i).val ""
      else credit_references.getD (d.refChoice i).val ""
    transaction_amount := round2 (d.amountDraw i)
    transaction_type := if d.isDebit i then "debit" else "credit"
    transaction_date := now - (d.daysAgo i : ℤ) }

/-- The transaction batch of `generate_transactions_for_account` before the
final sort, in order of generation (`i` in `range(1, count + 1)`; a
non-positive `count` yields the empty batch, as in Python). -/
def generate_transactions_raw (account_id : ℤ) (count : ℤ) (now : ℤ) (d : TxDraws) :
    List Transaction :=
  (List.range' 1 count.toNat).map fun (i : ℕ) => mkTransaction account_id now i d

/-- Comparator of the final sort of `generate_transactions_for_account`:
`transactions.sort(key=lambda x: x.transaction_date, reverse=True)` orders by
date descending. -/
def dateDesc (a b : Transaction) : Prop := b.transaction_date ≤ a.transaction_date

instance : DecidableRel dateDesc := fun a b => Int.decLe b.transaction_date a.transaction_date

instance : IsTotal Transaction dateDesc :=
  ⟨fun a b => (le_total b.transaction_date a.transaction_date).imp id id⟩

instance : IsTrans Transaction dateDesc :=
  ⟨fun _ _ _ hab hbc => le_trans hbc hab⟩

/-- The function `generate_transactions_for_account(account_id, count)` of
src/main.py.  The Python `list.sort` is a stable sort; with `reverse=True`
and the date key it is the stable sort under `dateDesc`, embedded here as
insertion sort (any two stable sorts of the same list under the same total
preorder agree). -/
def generate_transactions_for_account (account_id : ℤ) (count : ℤ) (now : ℤ) (d : TxDraws) :
    List Transaction :=
  (generate_transactions_raw account_id count now d).insertionSort dateDesc

/-- Python `s.split(",")` on a string modelled as a character list. -/
def splitComma : List Char → List (List Char)
  | [] => [[]]
  | c :: rest =>
    if c = ',' then [] :: splitComma rest
    else
      match splitComma rest with
      | t :: ts => (c :: t) :: ts
      | [] => [[c]]

/-- Python `s.strip()` (with no argument): remove leading and trailing
whitespace. -/
def pyStrip (l : List Char) : List Char :=
  ((l.dropWhile Char.isWhitespace).reverse.dropWhile Char.isWhitespace).reverse

/-- Decides that no two consecutive characters are underscores. -/
def noDoubleUnderscore : List Char → Bool
  | [] => true
  | [_] => true
  | a :: b :: r => (!(a = '_' && b = '_')) && noDoubleUnderscore (b :: r)

/-- Checks the digit part of the Python `int()` grammar (ASCII): nonempty,
decimal digits with single underscores allowed strictly between digits. -/
def okDigitPart (l : List Char) : Bool :=
  (!l.isEmpty) && l.all (fun c => c.isDigit || c == '_') &&
  (l.head? != some '_') && (l.getLast? != some '_') && noDoubleUnderscore l

/-- Numeric value of a digit string (underscores already removed). -/
def digitsToNat (l : List Char) : ℕ :=
  l.foldl (fun a c => 10 * a + (c.toNat - 48)) 0

/-- Unsigned part of Python `int(s)`. -/
def pyParseIntCore (l : List Char) : Option ℤ :=
  if okDigitPart l then some ((digitsToNat (l.filter (fun c => c != '_')) : ℕ) : ℤ)
  else none

/-- Python `int(s)` for a stripped ASCII string: optional sign followed by a
digit part. -/
def pyParseInt : List Char → Option ℤ
  | '+' :: rest => pyParseIntCore rest
  | '-' :: rest => (pyParseIntCore rest).map (fun z => -z)
  | l => pyParseIntCore l

/-- Decimal digits of a natural number as characters; `fuel` bounds the
recursion depth and is chosen large enough by the wrapper. -/
def natToCharsAux : ℕ → ℕ → List Char → List Char
  | 0, _, acc => acc
  | fuel + 1, n, acc =>
    if n < 10 then Char.ofNat (48 + n) :: acc
    else natToCharsAux fuel (n / 10) (Char.ofNat (48 + n % 10) :: acc)

/-- Python `str(n)` for a natural number. -/
def natToChars (n : ℕ) : List Char := natToCharsAux (n + 1) n []

/-- Python `str(i)` for an integer. -/
def intToChars (i : ℤ) : List Char :=
  if i < 0 then '-' :: natToChars i.natAbs else natToChars i.toNat

/-- Python `", ".join(parts)`. -/
def joinCommaSpace : List (List Char) → List Char
  | [] => []
  | [x] => x
  | x :: y :: r => x ++ (',' :: ' ' :: joinCommaSpace (y :: r))

/-- A FastAPI `HTTPException`: status code and detail message. -/
structure HTTPError where
  status_code : ℕ
  detail : List Char
deriving DecidableEq

/-- The Pydantic model `AccountsResponse`. -/
structure AccountsResponse where
  accounts : List BankAccount
  total_count : ℕ
deriving DecidableEq

/-- The Pydantic model `TransactionsResponse`. -/
structure TransactionsResponse where
  account_id : ℤ
  transactions : List Transaction
  total_count : ℕ
deriving DecidableEq

/-- The Pydantic model `MultiAccountTransactionsResponse`; the `accounts`
dictionary is modelled as an insertion-ordered association list keyed by
`str(account_id)`, and the optional `warnings` field as an `Option`. -/
structure MultiAccountTransactionsResponse where
  accounts : List (List Char × List Transaction)
  total_transactions : ℕ
  warnings : Option (List Char)
deriving DecidableEq

/-- Python slicing `l[:k]` for an arbitrary integer `k`: a non-negative `k`
keeps the first `k` elements, a negative `k` drops the last `-k`. -/
def pyTake (k : ℤ) (l : List BankAccount) : List BankAccount :=
  if 0 ≤ k then l.take k.toNat else l.take ((l.length : ℤ) + k).toNat

/-- The account universe of `get_accounts` after the optional type filter:
`if account_type and account_type in ACCOUNT_TYPES` applies an exact-match
filter, anything else (absent parameter, empty string, unknown value) leaves
the 20-account universe unchanged. -/
def filtered_universe (account_type : Option String) (d : AccountDraws) : List BankAccount :=
  match account_type with
  | some t =>
    if t ≠ "" ∧ t ∈ ACCOUNT_TYPES then
      (generate_accounts 20 d).filter (fun a => a.account_type == t)
    else generate_accounts 20 d
  | none => generate_accounts 20 d

/-- The endpoint `GET /api/accounts` (`get_accounts` in src/main.py). -/
def get_accounts (limit : ℤ) (account_type : Option String) (d : AccountDraws) :
    AccountsResponse :=
  let accounts := pyTake (min limit 20) (filtered_universe account_type d)
  { accounts := accounts, total_count := accounts.length }

/-- The detail string of the 404 raised by `get_account_transactions`. -/
def accountNotFoundDetail (account_id : ℤ) : List Char :=
  "Account with ID ".toList ++ intToChars account_id ++ " not found".toList

/-- The endpoint `GET /api/accounts/{account_id}/transactions`
(`get_account_transactions` in src/main.py). -/
def get_account_transactions (account_id : ℤ) (limit : ℤ) (dAcc : AccountDraws)
    (now : ℤ) (dTx : TxDraws) : Except HTTPError TransactionsResponse :=
  if account_id ∉ (generate_accounts 20 dAcc).map (fun a => a.id) then
    .error { status_code := 404, detail := accountNotFoundDetail account_id }
  else
    let transactions := generate_transactions_for_account account_id (min limit 5) now dTx
    .ok { account_id := account_id, transactions := transactions,
          total_count := transactions.length }

/-- The parsing step of `get_multiple_account_transactions`:
`[int(aid.strip()) for aid in account_ids.split(",") if aid.strip()]`,
returning `none` when some kept token raises `ValueError`. -/
def parse_account_ids (s : List Char) : Option (List ℤ) :=
  let kept := ((splitComma s).map pyStrip).filter (fun t => !t.isEmpty)
  if kept.all (fun t => (pyParseInt t).isSome) then some (kept.filterMap pyParseInt)
  else none

/-- Python dictionary assignment `m[k] = v`: overwrite in place if the key is
present, append otherwise. -/
def dictInsert (k : List Char) (v : List Transaction)
    (m : List (List Char × List Transaction)) : List (List Char × List Transaction) :=
  if m.any (fun p => p.1 == k) then m.map (fun p => if p.1 == k then (k, v) else p)
  else m ++ [(k, v)]

/-- The accumulation loop of `get_multiple_account_transactions` over the
valid ids, with the running dictionary, running total and the position used
to index the fresh transaction draws of each `generate_transactions_for_account`
call. -/
def multi_loop (tpa now : ℤ) (dTxs : ℕ → TxDraws) :
    List ℤ → ℕ → List (List Char × List Transaction) → ℕ →
    List (List Char × List Transaction) × ℕ
  | [], _, m, total => (m, total)
  | aid :: rest, idx, m, total =>
    let transactions := generate_transactions_for_account aid tpa now (dTxs idx)
    multi_loop tpa now dTxs rest (idx + 1)
      (dictInsert (intToChars aid) transactions m) (total + transactions.length)

/-- The endpoint `GET /api/transactions` (`get_multiple_account_transactions`
in src/main.py). -/
def get_multiple_account_transactions (account_ids : List Char)
    (transactions_per_account : ℤ) (dAcc : AccountDraws) (now : ℤ)
    (dTxs : ℕ → TxDraws) : Except HTTPError MultiAccountTransactionsResponse :=
  match parse_account_ids account_ids with
  | none =>
    .error { status_code := 400,
             detail := "Invalid account ID format. Use comma-separated integers.".toList }
  | some id_list =>
    if id_list.isEmpty then
      .error { status_code := 400, detail := "No valid account IDs provided".toList }
    else
      let valid_account_ids := (generate_accounts 20 dAcc).map (fun a => a.id)
      let valid_ids := id_list.filter (fun aid => decide (aid ∈ valid_account_ids))
      let invalid_ids := id_list.filter (fun aid => decide (aid ∉ valid_account_ids))
      if valid_ids.isEmpty then
        .error { status_code := 404,
                 detail := "None of the provided account IDs were found".toList }
      else
        let st := multi_loop (min transactions_per_account 5) now dTxs valid_ids 0 [] 0
        .ok { accounts := st.1, total_transactions := st.2,
              warnings :=
                if invalid_ids.isEmpty then none
                else some ("Account IDs not found: ".toList ++
                           joinCommaSpace (invalid_ids.map intToChars)) }

/-- Sum of the per-account transaction list lengths over the returned
dictionary. -/
def sumLens (m : List (List Char × List Transaction)) : ℕ :=
  (m.map (fun p => p.2.length)).sum

/-- The id list parsed from the query string (empty when parsing fails). -/
def requested_ids (s : List Char) : List ℤ := (parse_account_ids s).getD []

/-- The requested ids that are members of the regenerated account universe,
in request order and with multiplicity. -/
def multi_valid_ids (s : List Char) (dAcc : AccountDraws) : List ℤ :=
  (requested_ids s).filter
    (fun aid => decide (aid ∈ (generate_accounts 20 dAcc).map (fun a => a.id)))

/-- The requested ids that are not members of the regenerated account
universe, in request order and with multiplicity. -/
def multi_invalid_ids (s : List Char) (dAcc : AccountDraws) : List ℤ :=
  (requested_ids s).filter
    (fun aid => decide (aid ∉ (generate_accounts 20 dAcc).map (fun a => a.id)))

/-- A concrete in-range account-draw oracle: every account Transactional,
first draw 1000, second draw 0. -/
def dAcc0 : AccountDraws := ⟨fun _ => 0, fun _ => 1000, fun _ => 0, fun _ => 0⟩

/-- A concrete in-range account-draw oracle: every account a Credit Card with
a used-amount draw of 0. -/
def dCC0 : AccountDraws := ⟨fun _ => 1, fun _ => 1000, fun _ => 0, fun _ => 0⟩

/-- A concrete in-range account-draw oracle: every account a Loan. -/
def dLoan0 : AccountDraws := ⟨fun _ => 2, fun _ => 5000, fun _ => 0, fun _ => 0⟩

/-- A concrete transaction-draw oracle. -/
def dTx0 : TxDraws := ⟨fun _ => 0, fun _ => true, fun _ => 5, fun _ => 0⟩

instance {e a : Type} [DecidableEq e] [DecidableEq a] : DecidableEq (Except e a) :=
  fun x y =>
    match x, y with
    | .ok v, .ok w =>
      if h : v = w then .isTrue (congrArg Except.ok h)
      else .isFalse (fun he => h (Except.ok.inj he))
    | .error v, .error w =>
      if h : v = w then .isTrue (congrArg Except.error h)
      else .isFalse (fun he => h (Except.error.inj he))
    | .ok _, .error _ => .isFalse (fun he => Except.noConfusion he)
    | .error _, .ok _ => .isFalse (fun he => Except.noConfusion he)

set_option maxRecDepth 8000

theorem round_mono {x y : ℚ} (h : x ≤ y) : round x ≤ round y := by
  rw [round_eq, round_eq]
  exact Int.floor_mono (by linarith)

theorem round2_mono {x y : ℚ} (h : x ≤ y) : round2 x ≤ round2 y := by
  unfold round2
  have h2 : ((round (100 * x) : ℤ) : ℚ) ≤ ((round (100 * y) : ℤ) : ℚ) := by
    exact_mod_cast round_mono (by linarith)
  gcongr

theorem round2_intCast (n : ℤ) : round2 (n : ℚ) = n := by
  unfold round2
  have : (100 : ℚ) * (n : ℚ) = ((100 * n : ℤ) : ℚ) := by push_cast; ring
  rw [this, round_intCast]
  push_cast
  ring

theorem round2_nonneg {x : ℚ} (h : 0 ≤ x) : 0 ≤ round2 x := by
  have h1 := round2_mono h
  have h0 : round2 0 = 0 := by simpa using round2_intCast 0
  linarith

theorem round2_le_add_half_cent (x : ℚ) : round2 x ≤ x + 1 / 200 := by
  unfold round2
  have h := round_le_add_half (100 * x)
  have h100 : (0 : ℚ) < 100 := by norm_num
  calc ((round (100 * x) : ℤ) : ℚ) / 100 ≤ (100 * x + 1 / 2) / 100 := by
        gcongr
    _ = x + 1 / 200 := by ring

theorem round2_round2 (x : ℚ) : round2 (round2 x) = round2 x := by
  unfold round2
  rw [show (100 : ℚ) * (((round (100 * x) : ℤ) : ℚ) / 100) = ((round (100 * x) : ℤ) : ℚ) by
    ring, round_intCast]

theorem round2_le_of_le_round2 {x y : ℚ} (h : x ≤ round2 y) : round2 x ≤ round2 y := by
  have := round2_mono h
  rwa [round2_round2] at this

theorem mkAccount_id (i : ℤ) (ty : Fin 3) (uA uB : ℚ) (pfx : Fin 12) :
    (mkAccount i ty uA uB pfx).id = i := by
  unfold mkAccount
  split
  · rfl
  · split <;> rfl

theorem generate_accounts_map_id (count : ℕ) (d : AccountDraws) :
    (generate_accounts count d).map (fun a => a.id) =
      (List.range' 1 count).map (fun (i : ℕ) => (i : ℤ)) := by
  unfold generate_accounts
  rw [List.map_map]
  exact List.map_congr_left fun i _ => mkAccount_id ..

theorem mem_id_universe {id : ℤ} {d : AccountDraws} :
    id ∈ (generate_accounts 20 d).map (fun a => a.id) ↔ 1 ≤ id ∧ id ≤ 20 := by
  rw [generate_accounts_map_id]
  simp only [List.mem_map, List.mem_range'_1]
  constructor
  · rintro ⟨i, ⟨h1, h2⟩, rfl⟩
    omega
  · rintro ⟨h1, h2⟩
    exact ⟨id.toNat, by omega, by omega⟩

theorem mkAccount_ty0 (i : ℤ) (h : (0 : ℕ) < 3) (uA uB : ℚ) (pfx : Fin 12) :
    mkAccount i ⟨0, h⟩ uA uB pfx =
      { id := i
        account_name := (name_prefixes.getD pfx.val "") ++ " Account"
        account_type := "Transactional"
        available_balance := round2 (round2 uA - uB)
        total_balance := round2 uA } := rfl

theorem mkAccount_ty1 (i : ℤ) (h : (1 : ℕ) < 3) (uA uB : ℚ) (pfx : Fin 12) :
    mkAccount i ⟨1, h⟩ uA uB pfx =
      { id := i
        account_name := (name_prefixes.getD pfx.val "") ++ " Card"
        account_type := "Credit Card"
        available_balance := round2 uA - round2 uB
        total_balance := -round2 uB } := rfl

theorem mkAccount_ty2 (i : ℤ) (h : (2 : ℕ) < 3) (uA uB : ℚ) (pfx : Fin 12) :
    mkAccount i ⟨2, h⟩ uA uB pfx =
      { id := i
        account_name := (name_prefixes.getD pfx.val "") ++ " Loan"
        account_type := "Loan"
        available_balance := 0
        total_balance := -(round2 uA - round2 uB) } := rfl

theorem mkAccount_props (i : ℤ) (ty : Fin 3) (uA uB : ℚ) (pfx : Fin 12)
    (h : drawRangesOk ty uA uB) :
    ((mkAccount i ty uA uB pfx).account_type = "Loan" →
        (mkAccount i ty uA uB pfx).available_balance = 0 ∧
        (mkAccount i ty uA uB pfx).total_balance < 0) ∧
    ((mkAccount i ty uA uB pfx).account_type = "Credit Card" →
        (mkAccount i ty uA uB pfx).total_balance ≤ 0) ∧
    ((mkAccount i ty uA uB pfx).account_type = "Transactional" →
        (mkAccount i ty uA uB pfx).available_balance ≤ (mkAccount i ty uA uB pfx).total_balance)
    := by
  rcases ty with ⟨(_ | _ | _ | v), hv⟩
  · rw [mkAccount_ty0 i hv uA uB pfx]
    norm_num [drawRangesOk] at h
    refine ⟨fun hL => absurd (show ("Transactional" : String) = "Loan" from hL) (by decide),
      fun hC => absurd (show ("Transactional" : String) = "Credit Card" from hC) (by decide),
      fun _ => ?_⟩
    show round2 (round2 uA - uB) ≤ round2 uA
    exact round2_le_of_le_round2 (by linarith [h.2.2.1])
  · rw [mkAccount_ty1 i hv uA uB pfx]
    norm_num [drawRangesOk] at h
    refine ⟨fun hL => absurd (show ("Credit Card" : String) = "Loan" from hL) (by decide),
      fun _ => ?_,
      fun hT => absurd (show ("Credit Card" : String) = "Transactional" from hT) (by decide)⟩
    show -round2 uB ≤ 0
    exact neg_nonpos.mpr (round2_nonneg h.2.2.1)
  · rw [mkAccount_ty2 i hv uA uB pfx]
    norm_num [drawRangesOk] at h
    have hA : (5000 : ℚ) ≤ round2 uA := by
      have h50 : round2 ((5000 : ℤ) : ℚ) = ((5000 : ℤ) : ℚ) := round2_intCast 5000
      have hm := round2_mono (x := ((5000 : ℤ) : ℚ)) (y := uA) (by exact_mod_cast h.1)
      rw [h50] at hm
      exact_mod_cast hm
    have hB : round2 uB ≤ uB + 1 / 200 := round2_le_add_half_cent uB
    have h4 : uB ≤ round2 uA * (1 / 2) := h.2.2.2
    refine ⟨fun _ => ⟨rfl, show -(round2 uA - round2 uB) < 0 by linarith⟩,
      fun hC => absurd (show ("Loan" : String) = "Credit Card" from hC) (by decide),
      fun hT => absurd (show ("Loan" : String) = "Transactional" from hT) (by decide)⟩
  · omega

theorem generate_accounts_props {count : ℕ} {d : AccountDraws} (hOk : AccountDrawsOk d)
    {a : BankAccount} (ha : a ∈ generate_accounts count d) :
    (a.account_type = "Loan" → a.available_balance = 0 ∧ a.total_balance < 0) ∧
    (a.account_type = "Credit Card" → a.total_balance ≤ 0) ∧
    (a.account_type = "Transactional" → a.available_balance ≤ a.total_balance) := by
  unfold generate_accounts at ha
  obtain ⟨i, _, rfl⟩ := List.mem_map.mp ha
  exact mkAccount_props _ _ _ _ _ (hOk i)

theorem get_accounts_subset {limit : ℤ} {atype : Option String} {d : AccountDraws}
    {a : BankAccount} (ha : a ∈ (get_accounts limit atype d).accounts) :
    a ∈ generate_accounts 20 d := by
  have h1 : a ∈ filtered_universe atype d := by
    unfold get_accounts pyTake at ha
    dsimp only at ha
    split at ha <;> exact List.take_subset _ _ ha
  unfold filtered_universe at h1
  cases atype with
  | none => exact h1
  | some t =>
    dsimp only at h1
    by_cases hc : t ≠ "" ∧ t ∈ ACCOUNT_TYPES
    · rw [if_pos hc] at h1
      exact List.mem_of_mem_filter h1
    · rw [if_neg hc] at h1
      exact h1

theorem gen_tx_length (account_id count now : ℤ) (d : TxDraws) :
    (generate_transactions_for_account account_id count now d).length = count.toNat := by
  unfold generate_transactions_for_account
  rw [(List.perm_insertionSort dateDesc _).length_eq]
  simp [generate_transactions_raw]

theorem gen_tx_sorted (account_id count now : ℤ) (d : TxDraws) :
    (generate_transactions_for_account account_id count now d).Pairwise dateDesc :=
  List.sorted_insertionSort dateDesc _

theorem gen_tx_stable (account_id count now : ℤ) (d : TxDraws) (dd : ℤ) :
    (generate_transactions_for_account account_id count now d).filter
        (fun t => t.transaction_date == dd) =
      (generate_transactions_raw account_id count now d).filter
        (fun t => t.transaction_date == dd) := by
  set raw := generate_transactions_raw account_id count now d with hraw
  set p : Transaction → Bool := fun t => t.transaction_date == dd with hp
  have hdate : ∀ t ∈ raw.filter p, t.transaction_date = dd := by
    intro t ht
    have := List.of_mem_filter ht
    rwa [hp, beq_iff_eq] at this
  have hc : (raw.filter p).Pairwise dateDesc := by
    apply List.pairwise_of_forall_mem_list
    intro x hx y hy
    show y.transaction_date ≤ x.transaction_date
    rw [hdate x hx, hdate y hy]
  have hsub : List.Sublist (raw.filter p) (List.insertionSort dateDesc raw) :=
    List.sublist_insertionSort hc (List.filter_sublist raw)
  have hself : (raw.filter p).filter p = raw.filter p :=
    List.filter_eq_self.mpr fun a ha => List.of_mem_filter ha
  have hsub2 : List.Sublist (raw.filter p) ((List.insertionSort dateDesc raw).filter p) := by
    have := hsub.filter p
    rwa [hself] at this
  have hlen : ((List.insertionSort dateDesc raw).filter p).length = (raw.filter p).length :=
    ((List.perm_insertionSort dateDesc raw).filter p).length_eq
  exact (hsub2.eq_of_length hlen.symm).symm

theorem sumLens_append (m1 m2 : List (List Char × List Transaction)) :
    sumLens (m1 ++ m2) = sumLens m1 + sumLens m2 := by
  simp [sumLens]

theorem dictInsert_fresh (k : List Char) (v : List Transaction)
    (m : List (List Char × List Transaction)) (hk : ∀ p ∈ m, p.1 ≠ k) :
    dictInsert k v m = m ++ [(k, v)] := by
  unfold dictInsert
  rw [if_neg]
  intro hany
  obtain ⟨p, hp, he⟩ := List.any_eq_true.mp hany
  exact hk p hp (by rwa [beq_iff_eq] at he)

theorem multi_loop_total (tpa now : ℤ) (dTxs : ℕ → TxDraws) :
    ∀ (l : List ℤ) (idx : ℕ) (m : List (List Char × List Transaction)) (total : ℕ),
      (multi_loop tpa now dTxs l idx m total).2 = total + l.length * tpa.toNat := by
  intro l
  induction l with
  | nil => intro idx m total; simp [multi_loop]
  | cons aid rest ih =>
    intro idx m total
    simp only [multi_loop]
    rw [ih]
    rw [gen_tx_length]
    simp only [List.length_cons]
    ring

theorem multi_loop_sumLens (tpa now : ℤ) (dTxs : ℕ → TxDraws) :
    ∀ (l : List ℤ) (idx : ℕ) (m : List (List Char × List Transaction)) (total : ℕ),
      (∀ aid ∈ l, ∀ p ∈ m, p.1 ≠ intToChars aid) → (l.map intToChars).Nodup →
      sumLens (multi_loop tpa now dTxs l idx m total).1 = sumLens m + l.length * tpa.toNat := by
  intro l
  induction l with
  | nil => intro idx m total _ _; simp [multi_loop]
  | cons aid rest ih =>
    intro idx m total hfresh hnd
    simp only [multi_loop]
    have hk : ∀ p ∈ m, p.1 ≠ intToChars aid := hfresh aid (List.mem_cons_self _ _)
    rw [dictInsert_fresh _ _ _ hk]
    simp only [List.map_cons, List.nodup_cons] at hnd
    obtain ⟨hnot, hnd2⟩ := hnd
    have hfresh2 : ∀ a2 ∈ rest,
        ∀ p ∈ m ++ [(intToChars aid,
            generate_transactions_for_account aid tpa now (dTxs idx))],
          p.1 ≠ intToChars a2 := by
      intro a2 ha2 p hp
      rcases List.mem_append.mp hp with hp | hp
      · exact hfresh a2 (List.mem_cons_of_mem _ ha2) p hp
      · rcases List.mem_singleton.mp hp with rfl
        intro he
        apply hnot
        rw [show intToChars aid = intToChars a2 from he]
        exact List.mem_map_of_mem _ ha2
    rw [ih (idx + 1) _ _ hfresh2 hnd2]
    rw [sumLens_append]
    simp only [sumLens, List.map_cons, List.map_nil, List.sum_cons, List.sum_nil,
      gen_tx_length, List.length_cons]
    ring

theorem intToChars_inj_on_ids :
    ∀ a ∈ (List.range' 1 20).map (fun (n : ℕ) => (n : ℤ)),
      ∀ b ∈ (List.range' 1 20).map (fun (n : ℕ) => (n : ℤ)),
        intToChars a = intToChars b → a = b := by decide

theorem mem_idList_of_bounds {x : ℤ} (h1 : 1 ≤ x) (h2 : x ≤ 20) :
    x ∈ (List.range' 1 20).map (fun (n : ℕ) => (n : ℤ)) := by
  simp only [List.mem_map, List.mem_range'_1]
  exact ⟨x.toNat, by omega, by omega⟩

theorem parse_none_iff (s : List Char) :
    parse_account_ids s = none ↔
      ∃ t ∈ ((splitComma s).map pyStrip).filter (fun t => !t.isEmpty), pyParseInt t = none := by
  unfold parse_account_ids
  by_cases hall :
      (((splitComma s).map pyStrip).filter (fun t => !t.isEmpty)).all
        (fun t => (pyParseInt t).isSome)
  · rw [if_pos hall]
    simp only [List.all_eq_true] at hall
    constructor
    · intro h; exact absurd h (by simp)
    · rintro ⟨t, ht, hnone⟩
      have := hall t ht
      rw [hnone] at this
      exact absurd this (by simp)
  · rw [if_neg hall]
    simp only [List.all_eq_true, not_forall] at hall
    obtain ⟨t, ht, hns⟩ := hall
    exact ⟨fun _ => ⟨t, ht, Option.not_isSome_iff_eq_none.mp hns⟩, fun _ => rfl⟩

theorem parse_some_nil_iff (s : List Char) :
    parse_account_ids s = some [] ↔
      ((splitComma s).map pyStrip).filter (fun t => !t.isEmpty) = [] := by
  unfold parse_account_ids
  by_cases hall :
      (((splitComma s).map pyStrip).filter (fun t => !t.isEmpty)).all
        (fun t => (pyParseInt t).isSome)
  · rw [if_pos hall]
    simp only [List.all_eq_true] at hall
    constructor
    · intro h
      have hnil := Option.some.inj h
      rw [List.eq_nil_iff_forall_not_mem]
      intro t ht
      have hs := hall t ht
      have hn := List.filterMap_eq_nil_iff.mp hnil t ht
      rw [hn] at hs
      exact absurd hs (by simp)
    · intro h
      rw [h]
      rfl
  · rw [if_neg hall]
    constructor
    · intro h; exact absurd h (by simp)
    · intro h
      rw [h] at hall
      exact absurd (by rfl : List.all [] (fun t => (pyParseInt t).isSome) = true) hall

theorem multi_valid_ids_eq {s : List Char} {id_list : List ℤ} {dAcc : AccountDraws}
    (hP : parse_account_ids s = some id_list) :
    multi_valid_ids s dAcc =
      id_list.filter
        (fun aid => decide (aid ∈ (generate_accounts 20 dAcc).map (fun a => a.id))) := by
  unfold multi_valid_ids requested_ids
  rw [hP]
  rfl

theorem multi_invalid_ids_eq {s : List Char} {id_list : List ℤ} {dAcc : AccountDraws}
    (hP : parse_account_ids s = some id_list) :
    multi_invalid_ids s dAcc =
      id_list.filter
        (fun aid => decide (aid ∉ (generate_accounts 20 dAcc).map (fun a => a.id))) := by
  unfold multi_invalid_ids requested_ids
  rw [hP]
  rfl

theorem get_multiple_ok_inv {s : List Char} {tpa : ℤ} {dAcc : AccountDraws} {now : ℤ}
    {dTxs : ℕ → TxDraws} {r : MultiAccountTransactionsResponse}
    (hE : get_multiple_account_transactions s tpa dAcc now dTxs = Except.ok r) :
    multi_valid_ids s dAcc ≠ [] ∧
    r.accounts = (multi_loop (min tpa 5) now dTxs (multi_valid_ids s dAcc) 0 [] 0).1 ∧
    r.total_transactions = (multi_loop (min tpa 5) now dTxs (multi_valid_ids s dAcc) 0 [] 0).2 ∧
    (r.warnings.isSome ↔ multi_invalid_ids s dAcc ≠ []) := by
  unfold get_multiple_account_transactions at hE
  cases hP : parse_account_ids s with
  | none => rw [hP] at hE; exact absurd hE (by simp)
  | some id_list =>
    rw [hP] at hE
    dsimp only at hE
    by_cases h0 : id_list.isEmpty
    · rw [if_pos h0] at hE; exact absurd hE (by simp)
    · rw [if_neg h0] at hE
      rw [multi_valid_ids_eq hP, multi_invalid_ids_eq hP]
      by_cases h1 :
          (id_list.filter
            (fun aid =>
              decide (aid ∈ (generate_accounts 20 dAcc).map (fun a => a.id)))).isEmpty
      · rw [if_pos h1] at hE; exact absurd hE (by simp)
      · rw [if_neg h1] at hE
        have hr := (Except.ok.inj hE).symm
        subst hr
        refine ⟨fun hnil => h1 (by rw [hnil]; rfl), rfl, rfl, ?_⟩
        by_cases h2 :
            (id_list.filter
              (fun aid =>
                decide (aid ∉ (generate_accounts 20 dAcc).map (fun a => a.id)))).isEmpty
        · rw [if_pos h2]
          simp only [Option.isSome_none, Bool.false_eq_true, false_iff, ne_eq, not_not]
          exact List.isEmpty_iff.mp h2
        · rw [if_neg h2]
          simp only [Option.isSome_some, true_iff, ne_eq]
          intro hnil
          exact h2 (by rw [hnil]; rfl)

theorem round2_1000 : round2 (1000 : ℚ) = 1000 := by
  have h := round2_intCast 1000
  push_cast at h
  exact h

theorem round2_5000 : round2 (5000 : ℚ) = 5000 := by
  have h := round2_intCast 5000
  push_cast at h
  exact h

theorem dAcc0_ok : AccountDrawsOk dAcc0 := by
  intro i
  show drawRangesOk 0 1000 0
  norm_num [drawRangesOk]

theorem dCC0_ok : AccountDrawsOk dCC0 := by
  intro i
  show drawRangesOk 1 1000 0
  norm_num [drawRangesOk, round2_1000]

theorem dLoan0_ok : AccountDrawsOk dLoan0 := by
  intro i
  show drawRangesOk 2 5000 0
  norm_num [drawRangesOk, round2_5000]

/-- C9: the account generator returns exactly `count` accounts whose ids are
precisely 1, 2, ..., count in ascending order, so membership in the
regenerated 20-account universe (the check both transaction endpoints
perform) holds exactly for ids between 1 and 20, regardless of the random
draws. -/
theorem c9_generator_ids (count : ℕ) (d : AccountDraws) :
    (generate_accounts count d).map (fun a => a.id) =
      (List.range' 1 count).map (fun (i : ℕ) => (i : ℤ)) ∧
    ∀ id : ℤ, id ∈ (generate_accounts 20 d).map (fun a => a.id) ↔ 1 ≤ id ∧ id ≤ 20 :=
  ⟨generate_accounts_map_id count d, fun _ => mem_id_universe⟩

/-- C10: in every `/api/accounts` response `total_count` equals the length of
the returned accounts list, and in every successful
`/api/accounts/{account_id}/transactions` response `total_count` equals the
length of the returned transactions list. -/
theorem c10_total_count :
    (∀ (limit : ℤ) (atype : Option String) (d : AccountDraws),
      (get_accounts limit atype d).total_count =
        (get_accounts limit atype d).accounts.length) ∧
    (∀ (account_id limit : ℤ) (dAcc : AccountDraws) (now : ℤ) (dTx : TxDraws)
        (r : TransactionsResponse),
      get_account_transactions account_id limit dAcc now dTx = Except.ok r →
      r.total_count = r.transactions.length) := by
  constructor
  · intro limit atype d
    rfl
  · intro account_id limit dAcc now dTx r hE
    unfold get_account_transactions at hE
    split at hE
    · exact absurd hE (by simp)
    · have h := Except.ok.inj hE
      rw [← h]

/-- C10 witness: the theorem applied to account 1 with limit 0. -/
theorem c10_witness :
    ({ account_id := 1, transactions := [], total_count := 0 } :
        TransactionsResponse).total_count =
      ({ account_id := 1, transactions := [], total_count := 0 } :
        TransactionsResponse).transactions.length :=
  c10_total_count.2 1 0 dAcc0 0 dTx0 _ (by decide)

/-- C8: an `account_type` value outside the three known types (including the
empty string, and the absent parameter) applies no filter: the universe
considered before truncation is the full regenerated 20-account universe, and
the endpoint behaves exactly as with the parameter omitted. -/
theorem c8_unrecognized_type_ignored (t : String) (d : AccountDraws) (limit : ℤ)
    (h : t ∉ ACCOUNT_TYPES) :
    filtered_universe (some t) d = generate_accounts 20 d ∧
    filtered_universe none d = generate_accounts 20 d ∧
    get_accounts limit (some t) d = get_accounts limit none d := by
  have h1 : filtered_universe (some t) d = generate_accounts 20 d := by
    unfold filtered_universe
    dsimp only
    rw [if_neg (fun hc => h hc.2)]
  refine ⟨h1, rfl, ?_⟩
  unfold get_accounts
  rw [show filtered_universe (some t) d = filtered_universe none d from h1]

/-- C8 witness: the theorem applied to the unrecognized value "Savings". -/
theorem c8_witness :
    filtered_universe (some "Savings") dAcc0 = generate_accounts 20 dAcc0 ∧
    filtered_universe none dAcc0 = generate_accounts 20 dAcc0 ∧
    get_accounts 20 (some "Savings") dAcc0 = get_accounts 20 none dAcc0 :=
  c8_unrecognized_type_ignored "Savings" dAcc0 20 (by decide)

/-- C6: every generated transaction list is sorted by `transaction_date`
descending, and ties among equal dates keep the stable order of generation
(the filtered subsequence at each date equals that of the pre-sort batch). -/
theorem c6_sorted_descending_stable (account_id count now : ℤ) (d : TxDraws) :
    (generate_transactions_for_account account_id count now d).Pairwise dateDesc ∧
    ∀ dd : ℤ,
      (generate_transactions_for_account account_id count now d).filter
          (fun t => t.transaction_date == dd) =
        (generate_transactions_raw account_id count now d).filter
          (fun t => t.transaction_date == dd) :=
  ⟨gen_tx_sorted account_id count now d, gen_tx_stable account_id count now d⟩

/-- C7: every generated account of type Transactional has
`available_balance ≤ total_balance`, the available balance being the rounded
total minus a non-negative pending amount. -/
theorem c7_transactional_available_le_total (count : ℕ) (d : AccountDraws)
    (hOk : AccountDrawsOk d) :
    ∀ a ∈ generate_accounts count d,
      a.account_type = "Transactional" → a.available_balance ≤ a.total_balance :=
  fun _ ha hT => (generate_accounts_props hOk ha).2.2 hT

/-- C7 witness: the theorem applied to a concrete Transactional draw. -/
theorem c7_witness :
    (mkAccount 1 (dAcc0.typeChoice 1) (dAcc0.uniformA 1) (dAcc0.uniformB 1)
        (dAcc0.nameChoice 1)).available_balance ≤
      (mkAccount 1 (dAcc0.typeChoice 1) (dAcc0.uniformA 1) (dAcc0.uniformB 1)
        (dAcc0.nameChoice 1)).total_balance :=
  c7_transactional_available_le_total 1 dAcc0 dAcc0_ok _
    (List.mem_map.mpr ⟨1, by decide, rfl⟩) rfl

/-- C3 counterexample: the claim that the requested limit is clamped to
[0, 20] fails for `limit = -5`, where Python slicing `all_accounts[:-5]`
returns 15 accounts instead of the 0 accounts a lower clamp would give. -/
theorem c3_counterexample :
    ¬ (∀ (limit : ℤ) (atype : Option String) (d : AccountDraws),
        (get_accounts limit atype d).accounts.length =
          min (min (max limit 0) 20).toNat (filtered_universe atype d).length) := by
  intro h
  have hc := h (-5) none dAcc0
  revert hc
  decide

/-- C3 amended: the limit is clamped from above to 20 but not from below;
for a non-negative limit the endpoint returns
`min(limit, size after filter)` accounts, while a negative limit acts as a
Python negative slice bound and returns `max(size after filter + limit, 0)`
accounts. -/
theorem c3_amended (limit : ℤ) (atype : Option String) (d : AccountDraws) :
    (get_accounts limit atype d).accounts.length =
      if 0 ≤ limit then min (min limit 20).toNat (filtered_universe atype d).length
      else (((filtered_universe atype d).length : ℤ) + limit).toNat := by
  unfold get_accounts pyTake
  dsimp only
  by_cases h : 0 ≤ limit
  · have hmin : 0 ≤ min limit 20 := le_min h (by norm_num)
    rw [if_pos hmin, if_pos h, List.length_take]
  · have hlim : min limit 20 = limit := min_eq_left (by omega)
    have hmin : ¬ 0 ≤ min limit 20 := by omega
    rw [if_neg hmin, if_neg h, List.length_take, hlim]
    omega

/-- C4: the transactions endpoint for a single account fails with a 404
carrying the requested id in its detail exactly when the id is not a member
of the freshly regenerated 20-account universe, and succeeds otherwise. -/
theorem c4_not_found_iff (account_id limit : ℤ) (dAcc : AccountDraws) (now : ℤ)
    (dTx : TxDraws) :
    ((∃ e, get_account_transactions account_id limit dAcc now dTx = Except.error e ∧
        e.status_code = 404 ∧
        ∃ pre post, e.detail = pre ++ intToChars account_id ++ post) ↔
      account_id ∉ (generate_accounts 20 dAcc).map (fun a => a.id)) ∧
    (account_id ∈ (generate_accounts 20 dAcc).map (fun a => a.id) →
      ∃ r, get_account_transactions account_id limit dAcc now dTx = Except.ok r) := by
  unfold get_account_transactions
  by_cases hmem : account_id ∈ (generate_accounts 20 dAcc).map (fun a => a.id)
  · rw [if_neg (not_not_intro hmem)]
    constructor
    · constructor
      · rintro ⟨e, he, -⟩
        exact absurd he (by simp)
      · intro hno
        exact absurd hmem hno
    · intro _
      exact ⟨_, rfl⟩
  · rw [if_pos hmem]
    constructor
    · exact ⟨fun _ => hmem,
        fun _ => ⟨_, rfl, rfl, "Account with ID ".toList, " not found".toList, rfl⟩⟩
    · intro hyes
      exact absurd hyes hmem

/-- C4 witness: id 999 yields the 404 with 999 in the detail, id 1 succeeds. -/
theorem c4_witness :
    (∃ e, get_account_transactions 999 5 dAcc0 0 dTx0 = Except.error e ∧
        e.status_code = 404 ∧ ∃ pre post, e.detail = pre ++ intToChars 999 ++ post) ∧
    ∃ r, get_account_transactions 1 5 dAcc0 0 dTx0 = Except.ok r :=
  ⟨(c4_not_found_iff 999 5 dAcc0 0 dTx0).1.mpr (by decide),
   (c4_not_found_iff 1 5 dAcc0 0 dTx0).2 (by decide)⟩

/-- C5: the multi-account transactions endpoint fails with a 400 exactly when
splitting the query string on commas and stripping yields zero non-empty
tokens, or some non-empty token does not parse as an integer. -/
theorem c5_bad_request_iff (s : List Char) (tpa : ℤ) (dAcc : AccountDraws) (now : ℤ)
    (dTxs : ℕ → TxDraws) :
    (∃ e, get_multiple_account_transactions s tpa dAcc now dTxs = Except.error e ∧
        e.status_code = 400) ↔
      (((splitComma s).map pyStrip).filter (fun t => !t.isEmpty) = [] ∨
        ∃ t ∈ ((splitComma s).map pyStrip).filter (fun t => !t.isEmpty),
          pyParseInt t = none) := by
  unfold get_multiple_account_transactions
  cases hP : parse_account_ids s with
  | none =>
    constructor
    · intro _
      exact Or.inr ((parse_none_iff s).mp hP)
    · intro _
      exact ⟨_, rfl, rfl⟩
  | some id_list =>
    dsimp only
    by_cases h0 : id_list.isEmpty
    · rw [if_pos h0]
      constructor
      · intro _
        refine Or.inl ((parse_some_nil_iff s).mp ?_)
        rw [hP, List.isEmpty_iff.mp h0]
      · intro _
        exact ⟨_, rfl, rfl⟩
    · rw [if_neg h0]
      constructor
      · rintro ⟨e, he, h400⟩
        exfalso
        split at he
        · have := Except.error.inj he
          rw [← this] at h400
          exact absurd h400 (by norm_num)
        · exact absurd he (by simp)
      · intro hR
        exfalso
        rcases hR with hnil | ⟨t, ht, hnone⟩
        · have := (parse_some_nil_iff s).mpr hnil
          rw [hP] at this
          have := Option.some.inj this
          rw [this] at h0
          exact h0 rfl
        · have := (parse_none_iff s).mpr ⟨t, ht, hnone⟩
          rw [hP] at this
          exact absurd this (by simp)

/-- C5 witness: the query string "abc" yields a 400. -/
theorem c5_witness :
    ∃ e, get_multiple_account_transactions ("abc".toList) 5 dAcc0 0 (fun _ => dTx0) =
        Except.error e ∧ e.status_code = 400 :=
  (c5_bad_request_iff ("abc".toList) 5 dAcc0 0 (fun _ => dTx0)).mpr (by decide)

/-- C1 counterexample: a Credit Card account whose used-amount draw rounds to
zero has `total_balance = 0`, refuting the claimed strict negativity for
Credit Card accounts. -/
theorem c1_counterexample :
    ¬ (∀ (count : ℕ) (d : AccountDraws), AccountDrawsOk d →
        ∀ a ∈ generate_accounts count d,
          (a.account_type = "Loan" → a.available_balance = 0) ∧
          (a.account_type = "Loan" ∨ a.account_type = "Credit Card" →
            a.total_balance < 0)) := by
  intro h
  have hm : mkAccount 1 (dCC0.typeChoice 1) (dCC0.uniformA 1) (dCC0.uniformB 1)
      (dCC0.nameChoice 1) ∈ generate_accounts 1 dCC0 :=
    List.mem_map.mpr ⟨1, by decide, rfl⟩
  have hlt := (h 1 dCC0 dCC0_ok _ hm).2 (Or.inr rfl)
  have h0 : (mkAccount 1 (dCC0.typeChoice 1) (dCC0.uniformA 1) (dCC0.uniformB 1)
      (dCC0.nameChoice 1)).total_balance = 0 := by
    show -round2 0 = 0
    rw [show round2 (0 : ℚ) = 0 by simpa using round2_intCast 0]
    ring
  rw [h0] at hlt
  exact lt_irrefl 0 hlt

/-- C1 amended: for every generated account (and hence every account returned
by `/api/accounts`), a Loan account has `available_balance = 0` and
`total_balance < 0`, while a Credit Card account has `total_balance ≤ 0`
(zero exactly when the rounded used amount is zero). -/
theorem c1_amended (count : ℕ) (d : AccountDraws) (hOk : AccountDrawsOk d) :
    (∀ a ∈ generate_accounts count d,
      (a.account_type = "Loan" → a.available_balance = 0 ∧ a.total_balance < 0) ∧
      (a.account_type = "Credit Card" → a.total_balance ≤ 0)) ∧
    ∀ (limit : ℤ) (atype : Option String),
      ∀ a ∈ (get_accounts limit atype d).accounts,
        (a.account_type = "Loan" → a.available_balance = 0 ∧ a.total_balance < 0) ∧
        (a.account_type = "Credit Card" → a.total_balance ≤ 0) := by
  constructor
  · intro a ha
    have h := generate_accounts_props hOk ha
    exact ⟨h.1, h.2.1⟩
  · intro limit atype a ha
    have h := generate_accounts_props hOk (get_accounts_subset ha)
    exact ⟨h.1, h.2.1⟩

/-- C1 witness: the amended theorem applied to a concrete Loan draw and a
concrete Credit Card draw. -/
theorem c1_witness :
    ((mkAccount 1 (dLoan0.typeChoice 1) (dLoan0.uniformA 1) (dLoan0.uniformB 1)
        (dLoan0.nameChoice 1)).available_balance = 0 ∧
      (mkAccount 1 (dLoan0.typeChoice 1) (dLoan0.uniformA 1) (dLoan0.uniformB 1)
        (dLoan0.nameChoice 1)).total_balance < 0) ∧
    (mkAccount 1 (dCC0.typeChoice 1) (dCC0.uniformA 1) (dCC0.uniformB 1)
        (dCC0.nameChoice 1)).total_balance ≤ 0 :=
  ⟨((c1_amended 1 dLoan0 dLoan0_ok).1 _ (List.mem_map.mpr ⟨1, by decide, rfl⟩)).1 rfl,
   ((c1_amended 1 dCC0 dCC0_ok).1 _ (List.mem_map.mpr ⟨1, by decide, rfl⟩)).2 rfl⟩

/-- C2 counterexample: for the request "1,1" (a duplicated valid id) the
endpoint counts both occurrences in `total_transactions` (10) while the
dictionary keeps a single key "1" whose list has 5 entries, refuting the
claimed equality with the sum over the returned mapping. -/
theorem c2_counterexample :
    ¬ (∀ (s : List Char) (tpa : ℤ) (dAcc : AccountDraws) (now : ℤ)
        (dTxs : ℕ → TxDraws) (r : MultiAccountTransactionsResponse),
        get_multiple_account_transactions s tpa dAcc now dTxs = Except.ok r →
        r.total_transactions = sumLens r.accounts ∧
        (r.warnings.isSome ↔ multi_invalid_ids s dAcc ≠ [])) := by
  intro h
  have hval : (get_multiple_account_transactions ("1,1".toList) 5 dAcc0 0
      (fun _ => dTx0)).toOption.map
        (fun r => (r.total_transactions, sumLens r.accounts)) = some (10, 5) := by
    decide
  cases hE : get_multiple_account_transactions ("1,1".toList) 5 dAcc0 0 (fun _ => dTx0) with
  | error e =>
    rw [hE] at hval
    exact absurd hval (by simp [Except.toOption])
  | ok r =>
    rw [hE] at hval
    simp only [Except.toOption, Option.map_some', Option.some.injEq, Prod.mk.injEq] at hval
    have heq := (h _ _ _ _ _ r hE).1
    rw [heq] at hval
    omega

/-- C2 amended: for every successful call, `total_transactions` equals the
number of valid id occurrences in the request times the clamped per-account
count; when the valid ids are pairwise distinct (in particular whenever the
request has no duplicated valid id) this equals the sum of the per-account
list lengths over the returned mapping; and a warnings string is attached
exactly when some requested id was invalid. -/
theorem c2_amended (s : List Char) (tpa : ℤ) (dAcc : AccountDraws) (now : ℤ)
    (dTxs : ℕ → TxDraws) (r : MultiAccountTransactionsResponse)
    (hE : get_multiple_account_transactions s tpa dAcc now dTxs = Except.ok r) :
    r.total_transactions = (multi_valid_ids s dAcc).length * (min tpa 5).toNat ∧
    ((multi_valid_ids s dAcc).Nodup → r.total_transactions = sumLens r.accounts) ∧
    (r.warnings.isSome ↔ multi_invalid_ids s dAcc ≠ []) := by
  obtain ⟨hne, hacc, htot, hwarn⟩ := get_multiple_ok_inv hE
  refine ⟨?_, ?_, hwarn⟩
  · rw [htot, multi_loop_total]
    simp
  · intro hnd
    have hkeys : ((multi_valid_ids s dAcc).map intToChars).Nodup := by
      refine List.Nodup.map_on ?_ hnd
      intro x hx y hy hxy
      simp only [multi_valid_ids] at hx hy
      have hxu : x ∈ (generate_accounts 20 dAcc).map (fun a => a.id) :=
        of_decide_eq_true (List.mem_filter.mp hx).2
      have hyu : y ∈ (generate_accounts 20 dAcc).map (fun a => a.id) :=
        of_decide_eq_true (List.mem_filter.mp hy).2
      obtain ⟨hx1, hx2⟩ := mem_id_universe.mp hxu
      obtain ⟨hy1, hy2⟩ := mem_id_universe.mp hyu
      exact intToChars_inj_on_ids x (mem_idList_of_bounds hx1 hx2) y
        (mem_idList_of_bounds hy1 hy2) hxy
    rw [htot, hacc, multi_loop_total,
      multi_loop_sumLens (min tpa 5) now dTxs (multi_valid_ids s dAcc) 0 [] 0
        (fun aid _ p hp => absurd hp (List.not_mem_nil p)) hkeys]
    simp [sumLens]

/-- C2 witness: the amended theorem applied to the request "1,2,999". -/
theorem c2_witness :
    ∃ r, get_multiple_account_transactions ("1,2,999".toList) 5 dAcc0 0
        (fun _ => dTx0) = Except.ok r ∧
      r.total_transactions = 10 ∧ r.total_transactions = sumLens r.accounts ∧
      r.warnings.isSome := by
  cases hE : get_multiple_account_transactions ("1,2,999".toList) 5 dAcc0 0
      (fun _ => dTx0) with
  | error e =>
    have hOk : (get_multiple_account_transactions ("1,2,999".toList) 5 dAcc0 0
        (fun _ => dTx0)).isOk = true := by decide
    rw [hE] at hOk
    exact absurd hOk (by simp [Except.isOk, Except.toBool])
  | ok r =>
    obtain ⟨h1, h2, h3⟩ := c2_amended _ _ _ _ _ r hE
    refine ⟨r, rfl, ?_, h2 (by decide), h3.mpr (by decide)⟩
    rw [h1]
    decide
